import Mathlib

/-!
Verification development for the TURN client engine (`aioice/turn.py`).

The Python source is shallowly embedded: bytes are `List Nat` (each entry a
byte value), addresses are `String × Nat` pairs, dictionaries are association
lists observed through `List.lookup`, and the external STUN collaborator
(`stun.Message`, `stun.Transaction`, `stun.parse_message`) together with the
random transaction-id generator from `utils.py` — repository code that is not
part of the sources under verification — is modelled at its boundary from the
specification.  Every suspension point that waits on the network
(`stun.Transaction.run`) is parameterized by an `Outcome` describing the
externally-determined result of that transaction.
-/

namespace Turn

/-- A transport address `(host, port)`, mirroring the Python `Tuple[str, int]`. -/
abbrev Addr := String × Nat

/-- `TCP_TRANSPORT = 0x06000000` from the source. -/
def TCP_TRANSPORT : Nat := 0x06000000

/-- `UDP_TRANSPORT = 0x11000000` from the source. -/
def UDP_TRANSPORT : Nat := 0x11000000

/-- `is_channel_data(data)`: `(data[0] & 0xC0) == 0x40`.  The source indexes
`data[0]`; every call site guards `len(data) >= 4` (or the stream loop's
`len(buffer) >= 4`), so reading with a default is faithful there. -/
def is_channel_data (data : List Nat) : Bool :=
  (data.getD 0 0) &&& 0xC0 == 0x40

/-- The big-endian 16-bit field at offset 2, i.e. the second component of
`struct.unpack("!HH", data[0:4])`. -/
def len16 (data : List Nat) : Nat :=
  256 * data.getD 2 0 + data.getD 3 0

/-- The big-endian 16-bit field at offset 0, i.e. the first component of
`struct.unpack("!HH", data[0:4])`. -/
def chan16 (data : List Nat) : Nat :=
  256 * data.getD 0 0 + data.getD 1 0

/-- `struct.pack("!H", n)`: two big-endian bytes. -/
def pack16 (n : Nat) : List Nat :=
  [n / 256 % 256, n % 256]

/-! ### MD5 (the `hashlib.md5(...).digest()` used by `make_integrity_key`)

`hashlib` is an external library; the digest algorithm is embedded in full
(RFC 1321) so that `make_integrity_key` is executable and its output length
is provable. -/

/-- Truncate to a 32-bit word. -/
def w32 (n : Nat) : Nat := n % 4294967296

/-- 32-bit left rotation. -/
def rotl32 (x n : Nat) : Nat :=
  w32 (x <<< n) + (w32 x) >>> (32 - n)

/-- The 64 MD5 sine-derived constants `K[i]`. -/
def md5K : List Nat :=
  [0xd76aa478, 0xe8c7b756, 0x242070db, 0xc1bdceee,
   0xf57c0faf, 0x4787c62a, 0xa8304613, 0xfd469501,
   0x698098d8, 0x8b44f7af, 0xffff5bb1, 0x895cd7be,
   0x6b901122, 0xfd987193, 0xa679438e, 0x49b40821,
   0xf61e2562, 0xc040b340, 0x265e5a51, 0xe9b6c7aa,
   0xd62f105d, 0x02441453, 0xd8a1e681, 0xe7d3fbc8,
   0x21e1cde6, 0xc33707d6, 0xf4d50d87, 0x455a14ed,
   0xa9e3e905, 0xfcefa3f8, 0x676f02d9, 0x8d2a4c8a,
   0xfffa3942, 0x8771f681, 0x6d9d6122, 0xfde5380c,
   0xa4beea44, 0x4bdecfa9, 0xf6bb4b60, 0xbebfbc70,
   0x289b7ec6, 0xeaa127fa, 0xd4ef3085, 0x04881d05,
   0xd9d4d039, 0xe6db99e5, 0x1fa27cf8, 0xc4ac5665,
   0xf4292244, 0x432aff97, 0xab9423a7, 0xfc93a039,
   0x655b59c3, 0x8f0ccc92, 0xffeff47d, 0x85845dd1,
   0x6fa87e4f, 0xfe2ce6e0, 0xa3014314, 0x4e0811a1,
   0xf7537e82, 0xbd3af235, 0x2ad7d2bb, 0xeb86d391]

/-- The 64 MD5 per-round shift amounts `s[i]`. -/
def md5S : List Nat :=
  [7, 12, 17, 22, 7, 12, 17, 22, 7, 12, 17, 22, 7, 12, 17, 22,
   5, 9, 14, 20, 5, 9, 14, 20, 5, 9, 14, 20, 5, 9, 14, 20,
   4, 11, 16, 23, 4, 11, 16, 23, 4, 11, 16, 23, 4, 11, 16, 23,
   6, 10, 15, 21, 6, 10, 15, 21, 6, 10, 15, 21, 6, 10, 15, 21]

/-- Bitwise complement within 32 bits. -/
def not32 (x : Nat) : Nat := x ^^^ 0xFFFFFFFF

/-- The MD5 round mixing function `F/G/H/I` selected by the step index. -/
def md5F (i b c d : Nat) : Nat :=
  if i < 16 then (b &&& c) ||| (not32 b &&& d)
  else if i < 32 then (d &&& b) ||| (not32 d &&& c)
  else if i < 48 then b ^^^ c ^^^ d
  else c ^^^ (b ||| not32 d)

/-- The MD5 message-word index `g` for step `i`. -/
def md5G (i : Nat) : Nat :=
  if i < 16 then i
  else if i < 32 then (5 * i + 1) % 16
  else if i < 48 then (3 * i + 5) % 16
  else (7 * i) % 16

/-- One MD5 step on the state `(A, B, C, D)` using the 16 message words `M`. -/
def md5Round (M : List Nat) (st : Nat × Nat × Nat × Nat) (i : Nat) :
    Nat × Nat × Nat × Nat :=
  let (a, b, c, d) := st
  let f := w32 (md5F i b c d + a + md5K.getD i 0 + M.getD (md5G i) 0)
  (d, w32 (b + rotl32 f (md5S.getD i 0)), b, c)

/-- Decode a byte list into 32-bit little-endian words. -/
def toWordsLE : List Nat → List Nat
  | b0 :: b1 :: b2 :: b3 :: rest =>
    (b0 + 256 * b1 + 65536 * b2 + 16777216 * b3) :: toWordsLE rest
  | _ => []

/-- Serialize a 32-bit word as four little-endian bytes. -/
def wordToBytesLE (x : Nat) : List Nat :=
  [x % 256, x / 256 % 256, x / 65536 % 256, x / 16777216 % 256]

/-- Serialize a 64-bit value as eight little-endian bytes. -/
def len64ToBytesLE (x : Nat) : List Nat :=
  [x % 256, x / 256 % 256, x / 65536 % 256, x / 16777216 % 256,
   x / 4294967296 % 256, x / 1099511627776 % 256,
   x / 281474976710656 % 256, x / 72057594037927936 % 256]

/-- MD5 padding: append `0x80`, zero bytes to 56 mod 64, then the bit length
as a 64-bit little-endian value. -/
def md5Pad (msg : List Nat) : List Nat :=
  let z := (120 - (msg.length + 1) % 64) % 64
  msg ++ 0x80 :: List.replicate z 0 ++ len64ToBytesLE (msg.length * 8)

/-- Split a byte list into 64-byte chunks. -/
def chunks64 (l : List Nat) : List (List Nat) :=
  if l = [] then []
  else l.take 64 :: chunks64 (l.drop 64)
termination_by l.length
decreasing_by
  simp only [List.length_drop]
  rename_i h
  have : 0 < l.length := List.length_pos.mpr h
  omega

/-- Process one 64-byte chunk: run the 64 rounds and add into the state. -/
def md5Chunk (st : Nat × Nat × Nat × Nat) (chunk : List Nat) :
    Nat × Nat × Nat × Nat :=
  let M := toWordsLE chunk
  let (a, b, c, d) := (List.range 64).foldl (md5Round M) st
  (w32 (st.1 + a), w32 (st.2.1 + b), w32 (st.2.2.1 + c), w32 (st.2.2.2 + d))

/-- `hashlib.md5(msg).digest()` as a byte list (always 16 bytes). -/
def md5 (msg : List Nat) : List Nat :=
  let st := (chunks64 (md5Pad msg)).foldl md5Chunk
    (0x67452301, 0xefcdab89, 0x98badcfe, 0x10325476)
  wordToBytesLE st.1 ++ wordToBytesLE st.2.1 ++ wordToBytesLE st.2.2.1 ++
    wordToBytesLE st.2.2.2

/-- UTF-8 encoding of a single character (what `str.encode("utf8")` emits
per code point). -/
def utf8EncodeCharM (ch : Char) : List Nat :=
  let n := ch.toNat
  if n < 0x80 then [n]
  else if n < 0x800 then [0xC0 + n / 64, 0x80 + n % 64]
  else if n < 0x10000 then
    [0xE0 + n / 4096, 0x80 + n / 64 % 64, 0x80 + n % 64]
  else
    [0xF0 + n / 262144, 0x80 + n / 4096 % 64, 0x80 + n / 64 % 64,
     0x80 + n % 64]

/-- `s.encode("utf8")` as a byte list. -/
def strBytes (s : String) : List Nat :=
  (s.data.map utf8EncodeCharM).flatten

/-- `make_integrity_key(username, realm, password)`:
`hashlib.md5(":".join([username, realm, password]).encode("utf8")).digest()`. -/
def make_integrity_key (username realm password : String) : List Nat :=
  md5 (strBytes (String.intercalate ":" [username, realm, password]))

theorem md5_length (msg : List Nat) : (md5 msg).length = 16 := by
  simp [md5, wordToBytesLE]

/-- The derived integrity key is always 16 bytes. -/
theorem make_integrity_key_length (u r p : String) :
    (make_integrity_key u r p).length = 16 :=
  md5_length _

/-! ### Stream framing (`TurnStreamMixin.data_received`)

The stream mixin accumulates bytes in `self.buffer` and repeatedly slices
complete frames off the front, dispatching each through
`datagram_received`.  `drainBuf` is the loop body of `data_received`
operating on the whole buffer; `feedOne`/`feedChunks` model one call and a
sequence of calls. -/

/-- The full frame length computed from the first four buffered bytes:
`4 + length` for a ChannelData frame, `20 + length` for a STUN message. -/
def full_length (buf : List Nat) : Nat :=
  if is_channel_data buf then 4 + len16 buf else 20 + len16 buf

theorem full_length_pos (buf : List Nat) : 0 < full_length buf := by
  unfold full_length
  split <;> omega

theorem le_full_length (buf : List Nat) : 4 ≤ full_length buf := by
  unfold full_length
  split <;> omega

/-- The `while len(self.buffer) >= 4` loop of `data_received`: returns the
dispatched frames in order together with the remaining (partial) buffer. -/
def drainBuf (buf : List Nat) : List (List Nat) × List Nat :=
  if h : 4 ≤ buf.length then
    if buf.length < full_length buf then ([], buf)
    else
      (buf.take (full_length buf) :: (drainBuf (buf.drop (full_length buf))).1,
       (drainBuf (buf.drop (full_length buf))).2)
  else ([], buf)
termination_by buf.length
decreasing_by
  all_goals
    simp only [List.length_drop]
    have := full_length_pos buf
    omega

/-- One `data_received(data)` call starting from buffer `buf`:
`self.buffer += data` followed by the drain loop. -/
def feedOne (buf data : List Nat) : List (List Nat) × List Nat :=
  drainBuf (buf ++ data)

/-- A sequence of `data_received` calls, collecting every dispatched frame. -/
def feedChunks (buf : List Nat) : List (List Nat) → List (List Nat) × List Nat
  | [] => ([], buf)
  | c :: cs =>
    let fb := feedOne buf c
    let rest := feedChunks fb.2 cs
    (fb.1 ++ rest.1, rest.2)

/-- A dispatched frame is complete: its length is exactly the full frame
length its own header declares. -/
def frameComplete (f : List Nat) : Bool :=
  f.length == full_length f

theorem getD_take_lt (l : List Nat) (n i : Nat) (h : i < n) :
    (l.take n).getD i 0 = l.getD i 0 := by
  simp [List.getD_eq_getElem?_getD, List.getElem?_take, h]

theorem is_channel_data_append (b c : List Nat) (h : 1 ≤ b.length) :
    is_channel_data (b ++ c) = is_channel_data b := by
  unfold is_channel_data
  rw [List.getD_append _ _ _ 0 (by omega)]

theorem len16_append (b c : List Nat) (h : 4 ≤ b.length) :
    len16 (b ++ c) = len16 b := by
  unfold len16
  rw [List.getD_append _ _ _ 2 (by omega), List.getD_append _ _ _ 3 (by omega)]

theorem full_length_append (b c : List Nat) (h : 4 ≤ b.length) :
    full_length (b ++ c) = full_length b := by
  unfold full_length
  rw [is_channel_data_append b c (by omega), len16_append b c h]

theorem is_channel_data_take (b : List Nat) (n : Nat) (h : 1 ≤ n) :
    is_channel_data (b.take n) = is_channel_data b := by
  unfold is_channel_data
  rw [getD_take_lt b n 0 (by omega)]

theorem len16_take (b : List Nat) (n : Nat) (h : 4 ≤ n) :
    len16 (b.take n) = len16 b := by
  unfold len16
  rw [getD_take_lt b n 2 (by omega), getD_take_lt b n 3 (by omega)]

theorem full_length_take (b : List Nat) (n : Nat) (h : 4 ≤ n) :
    full_length (b.take n) = full_length b := by
  unfold full_length
  rw [is_channel_data_take b n (by omega), len16_take b n h]

/-- Draining a buffer and then appending more bytes dispatches the very same
leading frames; only the residue sees the new bytes. -/
theorem drainBuf_append (b c : List Nat) :
    drainBuf (b ++ c) =
      ((drainBuf b).1 ++ (drainBuf ((drainBuf b).2 ++ c)).1,
       (drainBuf ((drainBuf b).2 ++ c)).2) := by
  induction b using drainBuf.induct with
  | case1 b h hfl =>
    have hb : drainBuf b = ([], b) := by
      rw [drainBuf, dif_pos h, if_pos hfl]
    rw [hb]
    simp
  | case2 b h hfl ih1 =>
    have hle : full_length b ≤ b.length := by omega
    have h1 : 4 ≤ (b ++ c).length := by
      simp only [List.length_append]; omega
    have hfl' : full_length (b ++ c) = full_length b :=
      full_length_append b c h
    have h2 : ¬ (b ++ c).length < full_length (b ++ c) := by
      rw [hfl']
      simp only [List.length_append]; omega
    have hb : drainBuf b =
        (b.take (full_length b) :: (drainBuf (b.drop (full_length b))).1,
         (drainBuf (b.drop (full_length b))).2) := by
      rw [drainBuf, dif_pos h, if_neg hfl]
    conv_lhs => rw [drainBuf, dif_pos h1, if_neg h2]
    rw [hfl', List.take_append_of_le_length hle,
        List.drop_append_of_le_length hle, hb]
    simp only [List.cons_append]
    rw [ih1]
  | case3 b h =>
    have hb : drainBuf b = ([], b) := by
      rw [drainBuf, dif_neg h]
    rw [hb]
    simp

/-- The residual buffer left by the drain loop is itself stalled: draining
it again dispatches nothing. -/
theorem drainBuf_rest (buf : List Nat) :
    drainBuf (drainBuf buf).2 = ([], (drainBuf buf).2) := by
  induction buf using drainBuf.induct with
  | case1 b h hfl =>
    have hb : drainBuf b = ([], b) := by
      rw [drainBuf, dif_pos h, if_pos hfl]
    rw [hb, hb]
  | case2 b h hfl ih1 =>
    have hb : drainBuf b =
        (b.take (full_length b) :: (drainBuf (b.drop (full_length b))).1,
         (drainBuf (b.drop (full_length b))).2) := by
      rw [drainBuf, dif_pos h, if_neg hfl]
    rw [hb]
    exact ih1
  | case3 b h =>
    have hb : drainBuf b = ([], b) := by
      rw [drainBuf, dif_neg h]
    rw [hb, hb]

/-- Feeding chunks one call at a time equals feeding the concatenation at
once, starting from any stalled buffer. -/
theorem feedChunks_flatten (cs : List (List Nat)) (buf : List Nat)
    (hbuf : drainBuf buf = ([], buf)) :
    feedChunks buf cs = drainBuf (buf ++ cs.flatten) := by
  induction cs generalizing buf with
  | nil =>
    simp only [feedChunks, List.flatten_nil, List.append_nil, hbuf]
  | cons c cs ih =>
    simp only [feedChunks, feedOne]
    rw [ih (drainBuf (buf ++ c)).2 (drainBuf_rest (buf ++ c))]
    have : buf ++ (c :: cs).flatten = (buf ++ c) ++ cs.flatten := by
      simp
    rw [this, drainBuf_append (buf ++ c) cs.flatten]

/-- Every frame dispatched by the drain loop is complete. -/
theorem drainBuf_complete (buf : List Nat) :
    (drainBuf buf).1.all frameComplete = true := by
  induction buf using drainBuf.induct with
  | case1 b h hfl =>
    rw [drainBuf, dif_pos h, if_pos hfl]
    rfl
  | case2 b h hfl ih1 =>
    rw [drainBuf, dif_pos h, if_neg hfl]
    have hle : full_length b ≤ b.length := by omega
    have hfour : 4 ≤ full_length b := le_full_length b
    simp only [List.all_cons, Bool.and_eq_true]
    constructor
    · unfold frameComplete
      rw [full_length_take b (full_length b) hfour]
      simp [List.length_take, Nat.min_eq_left hle]
    · exact ih1
  | case3 b h =>
    rw [drainBuf, dif_neg h]
    rfl

/-! ### The STUN boundary

Modelled from the spec: `stun.Message`, `stun.Transaction`,
`stun.parse_message`, `stun.TransactionFailed` and
`utils.random_transaction_id` are repository code that is not part of the
sources under verification.  Per the spec they are specified only at their
boundary: a message has a method, a class, a 128-bit transaction id and an
attribute dictionary; `add_message_integrity`/`add_fingerprint` append a
MESSAGE-INTEGRITY computed from a key and a FINGERPRINT (modelled as the
key used and a flag); a transaction run either yields a
`(response, address)` pair, raises `TransactionFailed` carrying the error
response, or is cancelled; the id generator produces fresh random ids
(freshness appears as a hypothesis where a claim needs it). -/

/-- STUN methods used by the TURN client. -/
inductive MessageMethod where
  | ALLOCATE
  | REFRESH
  | CHANNEL_BIND
deriving DecidableEq, BEq, Repr

/-- STUN message classes. -/
inductive MessageClass where
  | REQUEST
  | INDICATION
  | RESPONSE
  | ERROR
deriving DecidableEq, BEq, Repr

/-- An attribute value as produced by the external STUN parser: LIFETIME and
REQUESTED-TRANSPORT and CHANNEL-NUMBER are integers, REALM and USERNAME are
strings, NONCE is bytes, the address attributes are `(host, port)` pairs and
ERROR-CODE is a `(code, phrase)` tuple.  `noneVal` is Python `None`. -/
inductive AttrVal where
  | nat (n : Nat)
  | str (s : String)
  | bytes (b : List Nat)
  | addr (a : Addr)
  | errorCode (code : Nat) (phrase : String)
  | noneVal
deriving DecidableEq, BEq, Repr

/-- Modelled from the spec: the part of `stun.Message` the TURN client
touches.  `integrityKeyUsed`/`fingerprinted` record the effect of
`add_message_integrity(key)` and `add_fingerprint()`. -/
structure Message where
  message_method : MessageMethod
  message_class : MessageClass
  transaction_id : Nat
  attributes : List (String × AttrVal)
  integrityKeyUsed : Option (List Nat) := none
  fingerprinted : Bool := false
deriving DecidableEq, BEq, Repr

/-- `message.attributes[name]` as an optional lookup (`None` means the
Python access would raise `KeyError`). -/
def getAttr (m : Message) (name : String) : Option AttrVal :=
  m.attributes.lookup name

/-- Python dict assignment `d[k] = v`, observed through `List.lookup`. -/
def updA {a b : Type} [BEq a] (m : List (a × b)) (k : a) (v : b) :
    List (a × b) :=
  (k, v) :: m.filter (fun p => !(p.1 == k))

theorem lookup_updA {a b : Type} [BEq a] [LawfulBEq a] [DecidableEq a]
    (m : List (a × b)) (k x : a) (v : b) :
    (updA m k v).lookup x = if x = k then some v else m.lookup x := by
  unfold updA
  by_cases hxk : x = k
  · subst hxk
    simp [List.lookup]
  · have hbeq : (x == k) = false := by simp [hxk]
    simp only [List.lookup, hbeq, if_neg hxk]
    induction m with
    | nil => rfl
    | cons p rest ih =>
      by_cases hpk : p.1 = k
      · have h1 : (p.1 == k) = true := by simp [hpk]
        have h2 : (x == p.1) = false := by simp [hpk, hxk]
        simp [List.filter_cons, h1, List.lookup, h2, ih]
      · have h1 : (p.1 == k) = false := by simp [hpk]
        cases hxp : (x == p.1) with
        | true => simp [List.filter_cons, h1, List.lookup, hxp]
        | false => simp [List.filter_cons, h1, List.lookup, hxp, ih]

/-- Attribute-dictionary assignment. -/
def dictSet (m : List (String × AttrVal)) (k : String) (v : AttrVal) :
    List (String × AttrVal) :=
  updA m k v

theorem lookup_dictSet (m : List (String × AttrVal)) (k x : String)
    (v : AttrVal) :
    (dictSet m k v).lookup x = if x = k then some v else m.lookup x :=
  lookup_updA m k x v

/-- Modelled from the spec: the externally determined result of running one
`stun.Transaction` — success with `(response, addr)`, `TransactionFailed`
carrying the error response, or cancellation. -/
inductive Outcome where
  | success (resp : Message) (addr : Addr)
  | failure (resp : Message)
  | cancelled
deriving DecidableEq, Repr

/-! ### Client state (`TurnClientMixin.__init__`) -/

/-- The mutable state of a `TurnClientMixin`, field for field from
`__init__`.  `receiver` and `refresh_handle` hold whether a receiver object
or a refresh future is set (their truthiness is all the source tests). -/
structure TurnState where
  channel_to_peer : List (Nat × Addr)
  peer_to_channel : List (Addr × Nat)
  channel_number : Nat
  integrity_key : Option (List Nat)
  lifetime : Nat
  nonce : Option (List Nat)
  password : String
  receiver : Bool
  realm : Option String
  refresh_handle : Bool
  relayed_address : Option Addr
  server : Addr
  transactions : List Nat
  username : String
deriving DecidableEq, Repr

/-- `TurnClientMixin.__init__(server, username, password, lifetime)`. -/
def initState (server : Addr) (username password : String) (lifetime : Nat) :
    TurnState :=
  { channel_to_peer := []
    peer_to_channel := []
    channel_number := 0x4000
    integrity_key := none
    lifetime := lifetime
    nonce := none
    password := password
    receiver := false
    realm := none
    refresh_handle := false
    relayed_address := none
    server := server
    transactions := []
    username := username }

/-- Channel-map assignment `self.channel_to_peer[channel] = addr`. -/
def chanSet (m : List (Nat × Addr)) (k : Nat) (v : Addr) :
    List (Nat × Addr) :=
  updA m k v

/-- Peer-map assignment `self.peer_to_channel[addr] = channel`. -/
def peerSet (m : List (Addr × Nat)) (k : Addr) (v : Nat) :
    List (Addr × Nat) :=
  updA m k v

theorem lookup_chanSet (m : List (Nat × Addr)) (k x : Nat) (v : Addr) :
    (chanSet m k v).lookup x = if x = k then some v else m.lookup x :=
  lookup_updA m k x v

theorem lookup_peerSet (m : List (Addr × Nat)) (k x : Addr) (v : Nat) :
    (peerSet m k v).lookup x = if x = k then some v else m.lookup x :=
  lookup_updA m k x v

/-! ### Operations of `TurnClientMixin`

Each coroutine is modelled as a state-transition function that also returns
the observable events it produced, in program order. -/

/-- Observable events of a client operation. -/
inductive Event where
  | cancelRefresh
  | recordBinding (channel : Nat) (addr : Addr)
  | sentRequest (m : Message)
  | sendFrame (frame : List Nat)
  | connectionLost
deriving DecidableEq, Repr

/-- The truthiness test `if self.integrity_key:` (`None` and `b""` are
falsy). -/
def keyTruthy (k : Option (List Nat)) : Bool :=
  match k with
  | none => false
  | some b => !(b.isEmpty)

/-- `TurnClientMixin.__add_authentication(request)`: set USERNAME, NONCE and
REALM, then `add_message_integrity(self.integrity_key)` and
`add_fingerprint()`. -/
def add_authentication (s : TurnState) (r : Message) : Message :=
  { r with
    attributes :=
      dictSet
        (dictSet
          (dictSet r.attributes "USERNAME" (.str s.username))
          "NONCE" (match s.nonce with | some b => .bytes b | none => .noneVal))
        "REALM" (match s.realm with | some x => .str x | none => .noneVal)
    integrityKeyUsed := s.integrity_key
    fingerprinted := true }

/-- The request as it goes on the wire: credentials are attached when
`self.integrity_key` is truthy. -/
def finalizeRequest (s : TurnState) (r : Message) : Message :=
  if keyTruthy s.integrity_key then add_authentication s r else r

/-- The result of `await self.request(...)` as seen by its caller. -/
inductive ReqResult where
  | ok (resp : Message) (addr : Addr)
  | failed (resp : Message)
  | cancelled
  | assertError
deriving DecidableEq, Repr

/-- `TurnClientMixin.request(request)`: assert the transaction id is not
registered, attach credentials when a key is known, register the
transaction, run it (`outcome` is the externally determined result), and
unconditionally unregister it in the `finally` block. -/
def requestM (s : TurnState) (req : Message) (outcome : Outcome) :
    ReqResult × TurnState × List Event :=
  if s.transactions.contains req.transaction_id then (.assertError, s, [])
  else
    let req2 := finalizeRequest s req
    let registered := req.transaction_id :: s.transactions
    let result : ReqResult :=
      match outcome with
      | .success resp addr => .ok resp addr
      | .failure resp => .failed resp
      | .cancelled => .cancelled
    (result,
     { s with transactions := registered.erase req.transaction_id },
     [.sentRequest req2])

/-- Failures `connect()` can surface: the assertion in `request`, a
cancellation, a `TransactionFailed` escaping uncaught, a `KeyError` from a
missing attribute, or a value of an unexpected shape at the STUN boundary. -/
inductive ConnError where
  | assertError
  | cancelled
  | transactionFailed (resp : Message)
  | keyError (attr : String)
  | typeError
deriving DecidableEq, Repr

/-- The tail of `connect()` shared by all paths that reach line 99:
`self.relayed_address = response.attributes["XOR-RELAYED-ADDRESS"]`, then
start the refresh task and return the relayed address. -/
def allocateFinish (s : TurnState) (resp : Message) (tr : List Event) :
    Except ConnError Addr × TurnState × List Event :=
  match getAttr resp "XOR-RELAYED-ADDRESS" with
  | some (.addr a) =>
    (.ok a, { s with relayed_address := some a, refresh_handle := true }, tr)
  | some _ => (.error .typeError, s, tr)
  | none => (.error (.keyError "XOR-RELAYED-ADDRESS"), s, tr)

/-- The ALLOCATE request built at the top of `connect()` (`tid` stands for
the random transaction id the `stun.Message` constructor draws). -/
def mkAllocateRequest (lifetime tid : Nat) : Message :=
  { message_method := .ALLOCATE
    message_class := .REQUEST
    transaction_id := tid
    attributes :=
      dictSet (dictSet [] "LIFETIME" (.nat lifetime))
        "REQUESTED-TRANSPORT" (.nat UDP_TRANSPORT) }

/-- The state `connect()` reaches after recording NONCE and REALM from a
401 challenge and deriving the integrity key (source lines 88-93). -/
def challengedState (s : TurnState) (nb : List Nat) (rs : String) :
    TurnState :=
  { s with
    nonce := some nb
    realm := some rs
    integrity_key := some (make_integrity_key s.username rs s.password) }

/-- The retried ALLOCATE request before credential attachment: the same
request object with a freshly drawn transaction id (source line 96). -/
def allocRetryReq (s : TurnState) (tid1 freshId : Nat) : Message :=
  { mkAllocateRequest s.lifetime tid1 with transaction_id := freshId }

/-- `TurnClientMixin.connect()`.  `tid1` is the random transaction id of the
initial ALLOCATE, `freshId` the one drawn by `random_transaction_id()` for
the authenticated retry; `o1`/`o2` are the outcomes of the two possible
transactions.  Note the source catches `TransactionFailed` and falls
through to line 99 whenever ERROR-CODE is not 401. -/
def connectModel (s : TurnState) (tid1 freshId : Nat) (o1 o2 : Outcome) :
    Except ConnError Addr × TurnState × List Event :=
  match requestM s (mkAllocateRequest s.lifetime tid1) o1 with
  | (.ok resp _, s1, tr1) => allocateFinish s1 resp tr1
  | (.cancelled, s1, tr1) => (.error .cancelled, s1, tr1)
  | (.assertError, s1, tr1) => (.error .assertError, s1, tr1)
  | (.failed resp, s1, tr1) =>
    match getAttr resp "ERROR-CODE" with
    | none => (.error (.keyError "ERROR-CODE"), s1, tr1)
    | some (.errorCode code _) =>
      if code = 401 then
        match getAttr resp "NONCE" with
        | none => (.error (.keyError "NONCE"), s1, tr1)
        | some (.bytes nb) =>
          match getAttr resp "REALM" with
          | none =>
            (.error (.keyError "REALM"), { s1 with nonce := some nb }, tr1)
          | some (.str rs) =>
            match requestM (challengedState s1 nb rs)
                (allocRetryReq s tid1 freshId) o2 with
            | (.ok resp2 _, s3, tr2) => allocateFinish s3 resp2 (tr1 ++ tr2)
            | (.failed r2, s3, tr2) =>
              (.error (.transactionFailed r2), s3, tr1 ++ tr2)
            | (.cancelled, s3, tr2) => (.error .cancelled, s3, tr1 ++ tr2)
            | (.assertError, s3, tr2) =>
              (.error .assertError, s3, tr1 ++ tr2)
          | some _ =>
            (.error .typeError, { s1 with nonce := some nb }, tr1)
        | some _ => (.error .typeError, s1, tr1)
      else allocateFinish s1 resp tr1
    | some _ => (.error .typeError, s1, tr1)

/-- The result of `await self.delete()`. -/
inductive DelResult where
  | ok
  | raisedFailed (resp : Message)
  | raisedCancelled
  | raisedAssert
deriving DecidableEq, Repr

/-- The teardown REFRESH request built inside `delete()` (`tid` is the
random id drawn by the `stun.Message` constructor). -/
def mkTeardownRequest (tid : Nat) : Message :=
  { message_method := .REFRESH
    message_class := .REQUEST
    transaction_id := tid
    attributes := dictSet [] "LIFETIME" (.nat 0) }

/-- `TurnClientMixin.delete()`: cancel the refresh future if one is set,
send a REFRESH with LIFETIME 0, and on success notify the receiver. -/
def deleteModel (s : TurnState) (tid : Nat) (o : Outcome) :
    DelResult × TurnState × List Event :=
  let s1 := if s.refresh_handle then { s with refresh_handle := false } else s
  let ev1 : List Event := if s.refresh_handle then [.cancelRefresh] else []
  match requestM s1 (mkTeardownRequest tid) o with
  | (.ok _ _, s2, tr) =>
    (.ok, s2,
     ev1 ++ tr ++ (if s2.receiver then [Event.connectionLost] else []))
  | (.failed r, s2, tr) => (.raisedFailed r, s2, ev1 ++ tr)
  | (.cancelled, s2, tr) => (.raisedCancelled, s2, ev1 ++ tr)
  | (.assertError, s2, tr) => (.raisedAssert, s2, ev1 ++ tr)

/-- The CHANNEL-BIND request built by `channel_bind`. -/
def mkChannelBindRequest (channel : Nat) (addr : Addr) (tid : Nat) :
    Message :=
  { message_method := .CHANNEL_BIND
    message_class := .REQUEST
    transaction_id := tid
    attributes :=
      dictSet (dictSet [] "CHANNEL-NUMBER" (.nat channel))
        "XOR-PEER-ADDRESS" (.addr addr) }

/-- `TurnClientMixin.channel_bind(channel_number, addr)`. -/
def channel_bindModel (s : TurnState) (channel : Nat) (addr : Addr)
    (tid : Nat) (o : Outcome) : ReqResult × TurnState × List Event :=
  requestM s (mkChannelBindRequest channel addr tid) o

/-- The result of `await self.send_data(...)`; `ok` carries the channel
number the ChannelData frame was sent on. -/
inductive SendResult where
  | ok (channel : Nat)
  | raisedFailed (resp : Message)
  | raisedCancelled
  | raisedAssert
deriving DecidableEq, Repr

/-- The state `send_data` records for a fresh peer before awaiting the
CHANNEL-BIND: the channel taken from the counter, the counter incremented,
and both directions of the mapping inserted (source lines 196-199). -/
def boundState (s : TurnState) (addr : Addr) : TurnState :=
  { s with
    channel_number := s.channel_number + 1
    channel_to_peer := chanSet s.channel_to_peer s.channel_number addr
    peer_to_channel := peerSet s.peer_to_channel addr s.channel_number }

/-- `TurnClientMixin.send_data(data, addr)`: reuse the bound channel if one
exists; otherwise take the next channel number, record both directions of
the mapping, run CHANNEL-BIND, and only then transmit the framed data.  If
the bind raises, the exception propagates before the frame is sent — but
the recorded mapping and the incremented counter stay. -/
def send_dataModel (s : TurnState) (data : List Nat) (addr : Addr)
    (tid : Nat) (o : Outcome) : SendResult × TurnState × List Event :=
  match s.peer_to_channel.lookup addr with
  | some channel =>
    (.ok channel, s,
     [.sendFrame (pack16 channel ++ pack16 data.length ++ data)])
  | none =>
    let channel := s.channel_number
    match channel_bindModel (boundState s addr) channel addr tid o with
    | (.ok _ _, s2, tr) =>
      (.ok channel, s2,
       .recordBinding channel addr :: tr ++
         [.sendFrame (pack16 channel ++ pack16 data.length ++ data)])
    | (.failed r, s2, tr) =>
      (.raisedFailed r, s2, .recordBinding channel addr :: tr)
    | (.cancelled, s2, tr) =>
      (.raisedCancelled, s2, .recordBinding channel addr :: tr)
    | (.assertError, s2, tr) =>
      (.raisedAssert, s2, .recordBinding channel addr :: tr)

/-- What `datagram_received` does with an incoming datagram. -/
inductive DgEffect where
  | deliver (payload : List Nat) (peer : Addr)
  | route (txid : Nat)
  | drop
deriving DecidableEq, Repr

/-- `TurnClientMixin.datagram_received(data, addr)`.  `parse` stands for the
external `stun.parse_message` (`none` models the caught `ValueError`).
The client state is never mutated; the effect says what was done. -/
def datagram_receivedModel (parse : List Nat → Option Message)
    (s : TurnState) (data : List Nat) : TurnState × DgEffect :=
  if 4 ≤ data.length ∧ is_channel_data data = true then
    if len16 data + 4 ≤ data.length ∧ s.receiver = true then
      match s.channel_to_peer.lookup (chan16 data) with
      | some peer_address =>
        (s, .deliver ((data.drop 4).take (len16 data)) peer_address)
      | none => (s, .drop)
    else (s, .drop)
  else
    match parse data with
    | none => (s, .drop)
    | some message =>
      if (message.message_class = .RESPONSE ∨
          message.message_class = .ERROR) ∧
         s.transactions.contains message.transaction_id = true then
        (s, .route message.transaction_id)
      else (s, .drop)

/-! ### Claim theorems -/

/-- **C5**: feeding the byte stream to `data_received` split across
arbitrary chunk boundaries dispatches the identical frame sequence (and
leaves the identical residual buffer) as feeding it all at once, and every
dispatched frame is complete: its length is `4 + length` for a ChannelData
frame (top two bits of the first byte are `01`) and `20 + length` for a
STUN message, `length` being the big-endian 16-bit field at offset 2. -/
theorem c5_stream_demux_chunk_invariant :
    (∀ cs : List (List Nat), feedChunks [] cs = drainBuf cs.flatten)
    ∧ (∀ buf : List Nat, (drainBuf buf).1.all frameComplete = true) := by
  constructor
  · intro cs
    have h0 : drainBuf ([] : List Nat) = ([], []) := by
      rw [drainBuf]
      simp
    have := feedChunks_flatten cs [] h0
    simpa using this
  · exact drainBuf_complete

/-- **C7**: `request()` requires that the request's transaction id is not
already registered (the assertion fires otherwise, touching nothing), and
on every exit path — normal return, raised failure, or cancellation — the
transaction is removed from the registry, so the registry afterwards holds
exactly the entries it held before the call. -/
theorem c7_request_registry (s : TurnState) (req : Message) (o : Outcome) :
    (s.transactions.contains req.transaction_id = true →
      requestM s req o = (.assertError, s, []))
    ∧ (s.transactions.contains req.transaction_id = false →
      (requestM s req o).2.1.transactions = s.transactions
      ∧ (requestM s req o).1 ≠ .assertError) := by
  constructor
  · intro h
    unfold requestM
    rw [if_pos h]
  · intro h
    unfold requestM
    rw [if_neg (by rw [h]; exact Bool.false_ne_true)]
    refine ⟨?_, ?_⟩
    · simp [List.erase_cons_head]
    · cases o <;> simp

theorem c7_request_registry_witness :
    (requestM (initState ("turn.example.com", 3478) "user" "pass" 600)
        (mkAllocateRequest 600 5) .cancelled).2.1.transactions = [] :=
  ((c7_request_registry
      (initState ("turn.example.com", 3478) "user" "pass" 600)
      (mkAllocateRequest 600 5) .cancelled).2 rfl).1

/-- **C8**: `datagram_received` never mutates the client state and never
raises; a well-formed bound ChannelData frame with a registered receiver
delivers exactly the declared payload slice and the bound peer address; a
parsed STUN message of class RESPONSE or ERROR with a registered
transaction id is routed to that transaction; everything else is dropped. -/
theorem c8_datagram_received_classification
    (parse : List Nat → Option Message) (s : TurnState) (data : List Nat) :
    ((datagram_receivedModel parse s data).1 = s)
    ∧ (∀ p pa, (datagram_receivedModel parse s data).2 = .deliver p pa ↔
        (4 ≤ data.length ∧ is_channel_data data = true
         ∧ len16 data + 4 ≤ data.length ∧ s.receiver = true
         ∧ s.channel_to_peer.lookup (chan16 data) = some pa
         ∧ p = (data.drop 4).take (len16 data)))
    ∧ (∀ t, (datagram_receivedModel parse s data).2 = .route t ↔
        (¬(4 ≤ data.length ∧ is_channel_data data = true)
         ∧ ∃ m, parse data = some m
             ∧ (m.message_class = .RESPONSE ∨ m.message_class = .ERROR)
             ∧ s.transactions.contains m.transaction_id = true
             ∧ t = m.transaction_id)) := by
  unfold datagram_receivedModel
  refine ⟨?_, ?_, ?_⟩
  · split
    · split
      · split <;> rfl
      · rfl
    · split
      · rfl
      · split <;> rfl
  · intro p pa
    split
    · rename_i hcd
      split
      · rename_i hlen
        split
        · rename_i pa2 hpa
          simp only [DgEffect.deliver.injEq]
          constructor
          · rintro ⟨rfl, rfl⟩
            exact ⟨hcd.1, hcd.2, hlen.1, hlen.2, hpa, rfl⟩
          · rintro ⟨-, -, -, -, hpa2, rfl⟩
            rw [hpa] at hpa2
            exact ⟨rfl, Option.some.inj hpa2⟩
        · rename_i hpa
          constructor
          · intro heq
            exact absurd heq (by simp)
          · rintro ⟨-, -, -, -, hpa2, -⟩
            rw [hpa] at hpa2
            exact Option.noConfusion hpa2
      · rename_i hlen
        constructor
        · intro heq
          exact absurd heq (by simp)
        · rintro ⟨-, -, h3, h4, -⟩
          exact absurd ⟨h3, h4⟩ hlen
    · rename_i hcd
      split
      · constructor
        · intro heq
          exact absurd heq (by simp)
        · rintro ⟨h1, h2, -⟩
          exact absurd ⟨h1, h2⟩ hcd
      · split
        · constructor
          · intro heq
            exact absurd heq (by simp)
          · rintro ⟨h1, h2, -⟩
            exact absurd ⟨h1, h2⟩ hcd
        · constructor
          · intro heq
            exact absurd heq (by simp)
          · rintro ⟨h1, h2, -⟩
            exact absurd ⟨h1, h2⟩ hcd
  · intro t
    split
    · rename_i hcd
      split
      · split
        · constructor
          · intro heq
            exact absurd heq (by simp)
          · rintro ⟨hncd, -⟩
            exact absurd hcd hncd
        · constructor
          · intro heq
            exact absurd heq (by simp)
          · rintro ⟨hncd, -⟩
            exact absurd hcd hncd
      · constructor
        · intro heq
          exact absurd heq (by simp)
        · rintro ⟨hncd, -⟩
          exact absurd hcd hncd
    · rename_i hcd
      split
      · rename_i hparse
        constructor
        · intro heq
          exact absurd heq (by simp)
        · rintro ⟨-, m, hm, -⟩
          rw [hparse] at hm
          exact Option.noConfusion hm
      · rename_i m hparse
        split
        · rename_i hcls
          constructor
          · intro heq
            injection heq with h
            exact ⟨hcd, m, hparse, hcls.1, hcls.2, h.symm⟩
          · rintro ⟨-, m2, hm2, -, -, ht⟩
            rw [hparse] at hm2
            cases hm2
            rw [ht]
        · rename_i hcls
          constructor
          · intro heq
            exact absurd heq (by simp)
          · rintro ⟨-, m2, hm2, hc2, ht2, -⟩
            rw [hparse] at hm2
            cases hm2
            exact absurd ⟨hc2, ht2⟩ hcls


/-! ### Helper lemmas for the operation models -/

theorem requestM_success (s : TurnState) (req resp : Message) (a : Addr)
    (h : s.transactions.contains req.transaction_id = false) :
    requestM s req (.success resp a) =
      (.ok resp a, s, [.sentRequest (finalizeRequest s req)]) := by
  unfold requestM
  rw [if_neg (by rw [h]; exact Bool.false_ne_true)]
  simp [List.erase_cons_head]

theorem requestM_failure (s : TurnState) (req resp : Message)
    (h : s.transactions.contains req.transaction_id = false) :
    requestM s req (.failure resp) =
      (.failed resp, s, [.sentRequest (finalizeRequest s req)]) := by
  unfold requestM
  rw [if_neg (by rw [h]; exact Bool.false_ne_true)]
  simp [List.erase_cons_head]

theorem requestM_cancelled (s : TurnState) (req : Message)
    (h : s.transactions.contains req.transaction_id = false) :
    requestM s req .cancelled =
      (.cancelled, s, [.sentRequest (finalizeRequest s req)]) := by
  unfold requestM
  rw [if_neg (by rw [h]; exact Bool.false_ne_true)]
  simp [List.erase_cons_head]

/-- `allocateFinish` only sets `relayed_address`/`refresh_handle`; every
other field and the trace pass through. -/
theorem allocateFinish_fields (s : TurnState) (r : Message) (tr : List Event) :
    (allocateFinish s r tr).2.1.nonce = s.nonce
    ∧ (allocateFinish s r tr).2.1.realm = s.realm
    ∧ (allocateFinish s r tr).2.1.integrity_key = s.integrity_key
    ∧ (allocateFinish s r tr).2.1.transactions = s.transactions
    ∧ (allocateFinish s r tr).2.1.channel_to_peer = s.channel_to_peer
    ∧ (allocateFinish s r tr).2.1.peer_to_channel = s.peer_to_channel
    ∧ (allocateFinish s r tr).2.1.channel_number = s.channel_number
    ∧ (allocateFinish s r tr).2.2 = tr := by
  unfold allocateFinish
  split <;> simp

/-- A key derived by `make_integrity_key` is truthy (it is 16 bytes). -/
theorem keyTruthy_make_integrity_key (u r p : String) :
    keyTruthy (some (make_integrity_key u r p)) = true := by
  unfold keyTruthy
  have h16 := make_integrity_key_length u r p
  cases hk : make_integrity_key u r p with
  | nil => rw [hk] at h16; simp at h16
  | cons x xs => simp [List.isEmpty]


/-! ### Connect / delete claims -/

/-- A concrete freshly-constructed client used by concrete instances. -/
def s0 : TurnState := initState ("turn.example.com", 3478) "user" "pass" 600

/-- A non-401 ALLOCATE error response that happens to carry
XOR-RELAYED-ADDRESS. -/
def c1resp : Message :=
  { message_method := .ALLOCATE
    message_class := .ERROR
    transaction_id := 5
    attributes := [("ERROR-CODE", .errorCode 403 "Forbidden"),
                   ("XOR-RELAYED-ADDRESS", .addr ("203.0.113.5", 56789))] }

/-- **C1 counterexample**: an ALLOCATE failure with ERROR-CODE 403 whose
error response carries XOR-RELAYED-ADDRESS is not surfaced: the caught
`TransactionFailed` falls through to line 99, `connect()` returns
successfully with the address taken from the *error* response, sets
`relayed_address` and starts the refresh task. -/
theorem c1_counterexample :
    (connectModel s0 5 7 (.failure c1resp) .cancelled).1 =
      .ok ("203.0.113.5", 56789)
    ∧ (connectModel s0 5 7 (.failure c1resp) .cancelled).2.1.relayed_address =
      some ("203.0.113.5", 56789)
    ∧ (connectModel s0 5 7 (.failure c1resp) .cancelled).2.1.refresh_handle =
      true :=
  ⟨rfl, rfl, rfl⟩

/-- **C1 (amended)**: if an ALLOCATE attempt fails with a STUN error whose
ERROR-CODE is not 401 *and the error response carries no
XOR-RELAYED-ADDRESS attribute*, then `connect()` surfaces an error (the
`KeyError` of the missing attribute, not the original transaction failure)
and the client state is exactly as before the call: `relayed_address`
unset, no refresh activity started, realm/nonce/integrity key unset, and
the registry restored. -/
theorem c1_connect_non401_error (s : TurnState) (tid1 freshId : Nat)
    (resp : Message) (o2 : Outcome) (code : Nat) (phrase : String)
    (hreg : s.transactions.contains tid1 = false)
    (hcode : getAttr resp "ERROR-CODE" = some (.errorCode code phrase))
    (h401 : ¬ code = 401)
    (hrelay : getAttr resp "XOR-RELAYED-ADDRESS" = none) :
    connectModel s tid1 freshId (.failure resp) o2 =
      (.error (.keyError "XOR-RELAYED-ADDRESS"), s,
       [.sentRequest (finalizeRequest s (mkAllocateRequest s.lifetime tid1))]) := by
  unfold connectModel
  rw [requestM_failure s (mkAllocateRequest s.lifetime tid1) resp hreg]
  dsimp only
  rw [hcode]
  dsimp only
  rw [if_neg h401]
  unfold allocateFinish
  rw [hrelay]

theorem c1_connect_non401_error_witness :
    connectModel s0 5 7
        (.failure { message_method := .ALLOCATE, message_class := .ERROR,
                    transaction_id := 5,
                    attributes := [("ERROR-CODE", .errorCode 403 "Forbidden")] })
        .cancelled =
      (.error (.keyError "XOR-RELAYED-ADDRESS"), s0,
       [.sentRequest (finalizeRequest s0 (mkAllocateRequest s0.lifetime 5))]) :=
  c1_connect_non401_error s0 5 7 _ .cancelled 403 "Forbidden" rfl rfl
    (by decide) rfl

/-- The authenticated retry request `connect()` sends after a 401 (source
lines 95-97 plus the credential attachment done inside `request`). -/
def retryRequest (s : TurnState) (tid1 freshId : Nat) (nb : List Nat)
    (rs : String) : Message :=
  add_authentication (challengedState s nb rs) (allocRetryReq s tid1 freshId)

/-- **C3**: on a 401 ALLOCATE failure, `connect()` copies REALM and NONCE
from the error response, derives the integrity key as the 16-byte MD5 of
the UTF-8 of `"username:realm:password"`, and retries the same ALLOCATE
exactly once — a trace of exactly two sent requests — where the retry has
the freshly generated transaction id (different from the first attempt)
and carries USERNAME, REALM, NONCE, MESSAGE-INTEGRITY and FINGERPRINT
along with the original LIFETIME and REQUESTED-TRANSPORT. -/
theorem c3_connect_401_retry (s : TurnState) (tid1 freshId : Nat)
    (resp : Message) (o2 : Outcome) (phrase : String) (nb : List Nat)
    (rs : String)
    (hkey : s.integrity_key = none)
    (hreg : s.transactions.contains tid1 = false)
    (hreg2 : s.transactions.contains freshId = false)
    (hdiff : freshId ≠ tid1)
    (hcode : getAttr resp "ERROR-CODE" = some (.errorCode 401 phrase))
    (hnonce : getAttr resp "NONCE" = some (.bytes nb))
    (hrealm : getAttr resp "REALM" = some (.str rs)) :
    (connectModel s tid1 freshId (.failure resp) o2).2.2 =
      [.sentRequest (mkAllocateRequest s.lifetime tid1),
       .sentRequest (retryRequest s tid1 freshId nb rs)]
    ∧ (retryRequest s tid1 freshId nb rs).transaction_id = freshId
    ∧ (retryRequest s tid1 freshId nb rs).transaction_id ≠
        (mkAllocateRequest s.lifetime tid1).transaction_id
    ∧ (retryRequest s tid1 freshId nb rs).message_method = .ALLOCATE
    ∧ getAttr (retryRequest s tid1 freshId nb rs) "USERNAME" =
        some (.str s.username)
    ∧ getAttr (retryRequest s tid1 freshId nb rs) "REALM" = some (.str rs)
    ∧ getAttr (retryRequest s tid1 freshId nb rs) "NONCE" = some (.bytes nb)
    ∧ getAttr (retryRequest s tid1 freshId nb rs) "LIFETIME" =
        some (.nat s.lifetime)
    ∧ getAttr (retryRequest s tid1 freshId nb rs) "REQUESTED-TRANSPORT" =
        some (.nat UDP_TRANSPORT)
    ∧ (retryRequest s tid1 freshId nb rs).integrityKeyUsed =
        some (make_integrity_key s.username rs s.password)
    ∧ (retryRequest s tid1 freshId nb rs).fingerprinted = true
    ∧ (connectModel s tid1 freshId (.failure resp) o2).2.1.nonce = some nb
    ∧ (connectModel s tid1 freshId (.failure resp) o2).2.1.realm = some rs
    ∧ (connectModel s tid1 freshId (.failure resp) o2).2.1.integrity_key =
        some (make_integrity_key s.username rs s.password)
    ∧ make_integrity_key s.username rs s.password =
        md5 (strBytes (String.intercalate ":" [s.username, rs, s.password]))
    ∧ (make_integrity_key s.username rs s.password).length = 16 := by
  have hfin1 : finalizeRequest s (mkAllocateRequest s.lifetime tid1) =
      mkAllocateRequest s.lifetime tid1 := by
    unfold finalizeRequest
    rw [hkey]
    rfl
  have hfin2 : finalizeRequest (challengedState s nb rs)
      (allocRetryReq s tid1 freshId) =
      retryRequest s tid1 freshId nb rs := by
    unfold finalizeRequest retryRequest
    rw [show (challengedState s nb rs).integrity_key =
          some (make_integrity_key s.username rs s.password) from rfl,
        keyTruthy_make_integrity_key]
    rw [if_pos rfl]
  have hmain : (connectModel s tid1 freshId (.failure resp) o2).2.2 =
        [.sentRequest (mkAllocateRequest s.lifetime tid1),
         .sentRequest (retryRequest s tid1 freshId nb rs)]
      ∧ (connectModel s tid1 freshId (.failure resp) o2).2.1.nonce = some nb
      ∧ (connectModel s tid1 freshId (.failure resp) o2).2.1.realm = some rs
      ∧ (connectModel s tid1 freshId (.failure resp) o2).2.1.integrity_key =
          some (make_integrity_key s.username rs s.password) := by
    unfold connectModel
    rw [requestM_failure s (mkAllocateRequest s.lifetime tid1) resp hreg,
        hfin1]
    dsimp only
    rw [hcode]
    dsimp only
    rw [if_pos rfl, hnonce]
    dsimp only
    rw [hrealm]
    dsimp only
    cases o2 with
    | success r2 a2 =>
      rw [requestM_success (challengedState s nb rs)
        (allocRetryReq s tid1 freshId) r2 a2 hreg2, hfin2]
      have hf := allocateFinish_fields (challengedState s nb rs) r2
        ([Event.sentRequest (mkAllocateRequest s.lifetime tid1)] ++
         [Event.sentRequest (retryRequest s tid1 freshId nb rs)])
      exact ⟨hf.2.2.2.2.2.2.2, hf.1, hf.2.1, hf.2.2.1⟩
    | failure r2 =>
      rw [requestM_failure (challengedState s nb rs)
        (allocRetryReq s tid1 freshId) r2 hreg2, hfin2]
      exact ⟨rfl, rfl, rfl, rfl⟩
    | cancelled =>
      rw [requestM_cancelled (challengedState s nb rs)
        (allocRetryReq s tid1 freshId) hreg2, hfin2]
      exact ⟨rfl, rfl, rfl, rfl⟩
  refine ⟨hmain.1, rfl, hdiff, rfl, rfl, rfl, rfl, rfl, rfl, rfl, rfl,
    hmain.2.1, hmain.2.2.1, hmain.2.2.2, rfl, make_integrity_key_length _ _ _⟩

/-- A concrete 401 challenge response. -/
def c3resp : Message :=
  { message_method := .ALLOCATE
    message_class := .ERROR
    transaction_id := 5
    attributes := [("ERROR-CODE", .errorCode 401 "Unauthorized"),
                   ("NONCE", .bytes [1, 2, 3]),
                   ("REALM", .str "example.org")] }

theorem c3_connect_401_retry_witness :
    (connectModel s0 5 7 (.failure c3resp) .cancelled).2.2 =
      [.sentRequest (mkAllocateRequest s0.lifetime 5),
       .sentRequest (retryRequest s0 5 7 [1, 2, 3] "example.org")]
    ∧ (retryRequest s0 5 7 [1, 2, 3] "example.org").fingerprinted = true :=
  ⟨(c3_connect_401_retry s0 5 7 c3resp .cancelled "Unauthorized" [1, 2, 3]
      "example.org" rfl rfl rfl (by decide) rfl rfl rfl).1,
   (c3_connect_401_retry s0 5 7 c3resp .cancelled "Unauthorized" [1, 2, 3]
      "example.org" rfl rfl rfl (by decide) rfl rfl
      rfl).2.2.2.2.2.2.2.2.2.2.1⟩


/-! ### Delete (C2) -/

/-- Whether an event is the sending of a teardown REFRESH (method REFRESH,
LIFETIME attribute 0). -/
def isTeardown (e : Event) : Bool :=
  match e with
  | .sentRequest m =>
    m.message_method == .REFRESH &&
      m.attributes.lookup "LIFETIME" == some (.nat 0)
  | _ => false

/-- Number of teardown REFRESH sends in a trace. -/
def countTeardown (tr : List Event) : Nat :=
  (tr.filter isTeardown).length

/-- The teardown request stays a teardown after credential attachment. -/
theorem isTeardown_finalize (s : TurnState) (tid : Nat) :
    isTeardown (.sentRequest (finalizeRequest s (mkTeardownRequest tid))) =
      true := by
  unfold finalizeRequest
  cases hk : keyTruthy s.integrity_key <;> rfl

/-- A freshly-allocated client with an active refresh task and a receiver,
as left behind by a completed `connect()` through `TurnTransport`. -/
def s0d : TurnState := { s0 with refresh_handle := true, receiver := true }

/-- A plain success response. -/
def okResp : Message :=
  { message_method := .REFRESH
    message_class := .RESPONSE
    transaction_id := 9
    attributes := [] }

/-- **C2 counterexample**: after a completed `delete()`, a second
`delete()` sends the teardown REFRESH (LIFETIME 0) again — the source
rebuilds and sends the request unconditionally — contradicting the claim
that it is not double-sent. -/
theorem c2_counterexample :
    (deleteModel s0d 9 (.success okResp ("turn.example.com", 3478))).1 = .ok
    ∧ ((deleteModel
          (deleteModel s0d 9 (.success okResp ("turn.example.com", 3478))).2.1
          10 (.success okResp ("turn.example.com", 3478))).2.2.any
        isTeardown) = true
    ∧ countTeardown
        (deleteModel
          (deleteModel s0d 9 (.success okResp ("turn.example.com", 3478))).2.1
          10 (.success okResp ("turn.example.com", 3478))).2.2 = 1 :=
  ⟨rfl, rfl, rfl⟩

/-- **C2 (amended)**: a second `delete()` after a completed `delete()` does
not raise (given its transaction succeeds) and does not re-cancel the
refresh activity — the handle was cleared by the first call — but it does
send the teardown REFRESH (LIFETIME 0) a second time.  On the first call
the refresh activity is cancelled before the teardown REFRESH is sent, and
the receiver is then notified that the connection is closed. -/
theorem c2_delete_twice (s : TurnState) (tid tid2 : Nat) (r r2 : Message)
    (a a2 : Addr)
    (hrh : s.refresh_handle = true) (hrecv : s.receiver = true)
    (hreg : s.transactions.contains tid = false)
    (hreg2 : s.transactions.contains tid2 = false) :
    deleteModel s tid (.success r a) =
      (.ok, { s with refresh_handle := false },
       [.cancelRefresh,
        .sentRequest (finalizeRequest { s with refresh_handle := false }
          (mkTeardownRequest tid)),
        .connectionLost])
    ∧ isTeardown (.sentRequest (finalizeRequest
        { s with refresh_handle := false } (mkTeardownRequest tid))) = true
    ∧ deleteModel (deleteModel s tid (.success r a)).2.1 tid2
        (.success r2 a2) =
      (.ok, { s with refresh_handle := false },
       [.sentRequest (finalizeRequest { s with refresh_handle := false }
          (mkTeardownRequest tid2)),
        .connectionLost])
    ∧ Event.cancelRefresh ∉
        (deleteModel (deleteModel s tid (.success r a)).2.1 tid2
          (.success r2 a2)).2.2
    ∧ countTeardown
        (deleteModel (deleteModel s tid (.success r a)).2.1 tid2
          (.success r2 a2)).2.2 = 1 := by
  have h1 : deleteModel s tid (.success r a) =
      (.ok, { s with refresh_handle := false },
       [.cancelRefresh,
        .sentRequest (finalizeRequest { s with refresh_handle := false }
          (mkTeardownRequest tid)),
        .connectionLost]) := by
    unfold deleteModel
    rw [hrh]
    simp only [reduceIte]
    rw [requestM_success { s with refresh_handle := false }
      (mkTeardownRequest tid) r a hreg]
    dsimp only
    rw [show ({ s with refresh_handle := false } : TurnState).receiver =
          true from hrecv]
    simp only [reduceIte]
    rfl
  have h2gen : ∀ s' : TurnState, s'.refresh_handle = false →
      s'.receiver = true → s'.transactions.contains tid2 = false →
      deleteModel s' tid2 (.success r2 a2) =
        (.ok, s',
         [.sentRequest (finalizeRequest s' (mkTeardownRequest tid2)),
          .connectionLost]) := by
    intro s' hz hb hc
    have hcn : ¬(s'.refresh_handle = true) := by
      rw [hz]; exact Bool.false_ne_true
    unfold deleteModel
    simp only [if_neg hcn]
    rw [requestM_success s' (mkTeardownRequest tid2) r2 a2 hc]
    dsimp only
    simp only [if_pos hb]
    rfl
  have h2 : deleteModel { s with refresh_handle := false } tid2
      (.success r2 a2) =
      (.ok, { s with refresh_handle := false },
       [.sentRequest (finalizeRequest { s with refresh_handle := false }
          (mkTeardownRequest tid2)),
        .connectionLost]) :=
    h2gen { s with refresh_handle := false } rfl hrecv hreg2
  have h2' : deleteModel (deleteModel s tid (.success r a)).2.1 tid2
      (.success r2 a2) =
      (.ok, { s with refresh_handle := false },
       [.sentRequest (finalizeRequest { s with refresh_handle := false }
          (mkTeardownRequest tid2)),
        .connectionLost]) := by
    rw [h1]
    exact h2
  refine ⟨h1, isTeardown_finalize _ tid, h2', ?_, ?_⟩
  · rw [h2']
    intro hmem
    simp only [List.mem_cons, List.not_mem_nil] at hmem
    rcases hmem with h | h | h
    · exact Event.noConfusion h
    · exact Event.noConfusion h
    · exact h
  · rw [h2']
    unfold countTeardown
    rw [List.filter_cons, List.filter_cons]
    rw [isTeardown_finalize { s with refresh_handle := false } tid2]
    rfl

theorem c2_delete_twice_witness :
    countTeardown
      (deleteModel
        (deleteModel s0d 20 (.success okResp ("turn.example.com", 3478))).2.1
        21 (.success okResp ("turn.example.com", 3478))).2.2 = 1 :=
  (c2_delete_twice s0d 20 21 okResp okResp ("turn.example.com", 3478)
    ("turn.example.com", 3478) rfl rfl rfl rfl).2.2.2.2


/-! ### send_data claims (C6, C10) -/

/-- Whether an event is the sending of a CHANNEL-BIND request. -/
def isChannelBindSend (e : Event) : Bool :=
  match e with
  | .sentRequest m => m.message_method == .CHANNEL_BIND
  | _ => false

/-- Number of CHANNEL-BIND transactions in a trace. -/
def countBinds (tr : List Event) : Nat :=
  (tr.filter isChannelBindSend).length

/-- A CHANNEL-BIND request stays a CHANNEL-BIND after credential
attachment. -/
theorem isChannelBindSend_finalize (s : TurnState) (c : Nat) (ad : Addr)
    (tid : Nat) :
    isChannelBindSend
      (.sentRequest (finalizeRequest s (mkChannelBindRequest c ad tid))) =
      true := by
  unfold finalizeRequest
  cases keyTruthy s.integrity_key <;> rfl

/-- First send to a fresh peer with a successful bind. -/
theorem send_data_first (s : TurnState) (data : List Nat) (addr : Addr)
    (tid : Nat) (r : Message) (a : Addr)
    (hfresh : s.peer_to_channel.lookup addr = none)
    (hreg : s.transactions.contains tid = false) :
    send_dataModel s data addr tid (.success r a) =
      (.ok s.channel_number, boundState s addr,
       [.recordBinding s.channel_number addr,
        .sentRequest (finalizeRequest (boundState s addr)
          (mkChannelBindRequest s.channel_number addr tid)),
        .sendFrame (pack16 s.channel_number ++ pack16 data.length ++ data)]) := by
  unfold send_dataModel
  rw [hfresh]
  dsimp only
  unfold channel_bindModel
  rw [requestM_success (boundState s addr)
    (mkChannelBindRequest s.channel_number addr tid) r a hreg]
  rfl

/-- First send to a fresh peer whose bind fails: the exception propagates
before the frame is sent, but the mapping and counter stay. -/
theorem send_data_first_failed (s : TurnState) (data : List Nat)
    (addr : Addr) (tid : Nat) (r : Message)
    (hfresh : s.peer_to_channel.lookup addr = none)
    (hreg : s.transactions.contains tid = false) :
    send_dataModel s data addr tid (.failure r) =
      (.raisedFailed r, boundState s addr,
       [.recordBinding s.channel_number addr,
        .sentRequest (finalizeRequest (boundState s addr)
          (mkChannelBindRequest s.channel_number addr tid))]) := by
  unfold send_dataModel
  rw [hfresh]
  dsimp only
  unfold channel_bindModel
  rw [requestM_failure (boundState s addr)
    (mkChannelBindRequest s.channel_number addr tid) r hreg]

/-- The recorded binding is visible in both maps of `boundState`. -/
theorem boundState_lookup (s : TurnState) (addr : Addr) :
    (boundState s addr).peer_to_channel.lookup addr = some s.channel_number
    ∧ (boundState s addr).channel_to_peer.lookup s.channel_number =
        some addr := by
  constructor
  · show (peerSet s.peer_to_channel addr s.channel_number).lookup addr = _
    rw [lookup_peerSet]
    simp
  · show (chanSet s.channel_to_peer s.channel_number addr).lookup
        s.channel_number = _
    rw [lookup_chanSet]
    simp

/-- A send to an already-bound peer only transmits the frame. -/
theorem send_data_rebound (s : TurnState) (data : List Nat) (addr : Addr)
    (tid : Nat) (o : Outcome) (ch : Nat)
    (hch : s.peer_to_channel.lookup addr = some ch) :
    send_dataModel s data addr tid o =
      (.ok ch, s, [.sendFrame (pack16 ch ++ pack16 data.length ++ data)]) := by
  unfold send_dataModel
  rw [hch]

/-- **C6**: `send_data` is idempotent per peer: the first send to a fresh
peer records both directions of the mapping *before* the CHANNEL-BIND is
awaited (the recording precedes the bind request in the trace, and the
state carried into the bind already holds the mapping), exactly one
CHANNEL-BIND is issued across both sends, and the second send reuses the
first channel number with no network activity beyond the ChannelData
frame. -/
theorem c6_send_data_idempotent (s : TurnState) (data data2 : List Nat)
    (addr : Addr) (tid tid2 : Nat) (r : Message) (a : Addr) (o2 : Outcome)
    (hfresh : s.peer_to_channel.lookup addr = none)
    (hreg : s.transactions.contains tid = false) :
    (send_dataModel s data addr tid (.success r a)).1 = .ok s.channel_number
    ∧ (send_dataModel s data addr tid (.success r a)).2.2 =
        [.recordBinding s.channel_number addr,
         .sentRequest (finalizeRequest (boundState s addr)
           (mkChannelBindRequest s.channel_number addr tid)),
         .sendFrame (pack16 s.channel_number ++ pack16 data.length ++ data)]
    ∧ (send_dataModel s data addr tid
        (.success r a)).2.1.peer_to_channel.lookup addr =
        some s.channel_number
    ∧ (send_dataModel s data addr tid
        (.success r a)).2.1.channel_to_peer.lookup s.channel_number =
        some addr
    ∧ (send_dataModel (send_dataModel s data addr tid (.success r a)).2.1
        data2 addr tid2 o2).1 = .ok s.channel_number
    ∧ (send_dataModel (send_dataModel s data addr tid (.success r a)).2.1
        data2 addr tid2 o2).2.2 =
        [.sendFrame (pack16 s.channel_number ++ pack16 data2.length ++ data2)]
    ∧ countBinds
        ((send_dataModel s data addr tid (.success r a)).2.2 ++
         (send_dataModel (send_dataModel s data addr tid (.success r a)).2.1
           data2 addr tid2 o2).2.2) = 1 := by
  have h1 := send_data_first s data addr tid r a hfresh hreg
  have hlk := boundState_lookup s addr
  have h2 : send_dataModel (send_dataModel s data addr tid
      (.success r a)).2.1 data2 addr tid2 o2 =
      (.ok s.channel_number, boundState s addr,
       [.sendFrame (pack16 s.channel_number ++ pack16 data2.length ++
         data2)]) := by
    rw [h1]
    exact send_data_rebound (boundState s addr) data2 addr tid2 o2
      s.channel_number hlk.1
  refine ⟨by rw [h1], by rw [h1], by rw [h1]; exact hlk.1,
    by rw [h1]; exact hlk.2, by rw [h2], by rw [h2], ?_⟩
  rw [h2, h1]
  unfold countBinds
  dsimp only [List.cons_append, List.nil_append]
  rw [List.filter_cons, List.filter_cons, List.filter_cons,
    List.filter_cons, isChannelBindSend_finalize]
  rfl

/-- A first send with concrete everything, used to instantiate C6. -/
theorem c6_send_data_idempotent_witness :
    (send_dataModel s0 [104, 105] ("198.51.100.9", 4000) 11
        (.success okResp ("turn.example.com", 3478))).1 = .ok 0x4000
    ∧ countBinds
        ((send_dataModel s0 [104, 105] ("198.51.100.9", 4000) 11
           (.success okResp ("turn.example.com", 3478))).2.2 ++
         (send_dataModel
           (send_dataModel s0 [104, 105] ("198.51.100.9", 4000) 11
             (.success okResp ("turn.example.com", 3478))).2.1
           [106] ("198.51.100.9", 4000) 12 .cancelled).2.2) = 1 :=
  ⟨(c6_send_data_idempotent s0 [104, 105] [106] ("198.51.100.9", 4000) 11 12
      okResp ("turn.example.com", 3478) .cancelled rfl rfl).1,
   (c6_send_data_idempotent s0 [104, 105] [106] ("198.51.100.9", 4000) 11 12
      okResp ("turn.example.com", 3478) .cancelled rfl
      rfl).2.2.2.2.2.2⟩

/-- **C10**: when the CHANNEL-BIND raised during the first `send_data` to a
peer, nothing is rolled back: both mapping directions stay recorded, the
channel counter stays incremented, no ChannelData frame was sent, and a
subsequent `send_data` to the same peer performs no CHANNEL-BIND and
transmits a ChannelData frame on the previously recorded (rejected)
channel number. -/
theorem c10_send_data_no_rollback (s : TurnState) (data data2 : List Nat)
    (addr : Addr) (tid tid2 : Nat) (r : Message) (o2 : Outcome)
    (hfresh : s.peer_to_channel.lookup addr = none)
    (hreg : s.transactions.contains tid = false) :
    (send_dataModel s data addr tid (.failure r)).1 = .raisedFailed r
    ∧ (send_dataModel s data addr tid (.failure r)).2.2 =
        [.recordBinding s.channel_number addr,
         .sentRequest (finalizeRequest (boundState s addr)
           (mkChannelBindRequest s.channel_number addr tid))]
    ∧ (send_dataModel s data addr tid
        (.failure r)).2.1.peer_to_channel.lookup addr =
        some s.channel_number
    ∧ (send_dataModel s data addr tid
        (.failure r)).2.1.channel_to_peer.lookup s.channel_number = some addr
    ∧ (send_dataModel s data addr tid (.failure r)).2.1.channel_number =
        s.channel_number + 1
    ∧ (send_dataModel (send_dataModel s data addr tid (.failure r)).2.1
        data2 addr tid2 o2).1 = .ok s.channel_number
    ∧ (send_dataModel (send_dataModel s data addr tid (.failure r)).2.1
        data2 addr tid2 o2).2.2 =
        [.sendFrame (pack16 s.channel_number ++ pack16 data2.length ++ data2)]
    ∧ countBinds
        (send_dataModel (send_dataModel s data addr tid (.failure r)).2.1
          data2 addr tid2 o2).2.2 = 0 := by
  have h1 := send_data_first_failed s data addr tid r hfresh hreg
  have hlk := boundState_lookup s addr
  have h2 : send_dataModel (send_dataModel s data addr tid
      (.failure r)).2.1 data2 addr tid2 o2 =
      (.ok s.channel_number, boundState s addr,
       [.sendFrame (pack16 s.channel_number ++ pack16 data2.length ++
         data2)]) := by
    rw [h1]
    exact send_data_rebound (boundState s addr) data2 addr tid2 o2
      s.channel_number hlk.1
  refine ⟨by rw [h1], by rw [h1], by rw [h1]; exact hlk.1,
    by rw [h1]; exact hlk.2, by rw [h1]; rfl, by rw [h2], by rw [h2], ?_⟩
  rw [h2]
  rfl

theorem c10_send_data_no_rollback_witness :
    (send_dataModel s0 [104] ("198.51.100.9", 4000) 11
        (.failure okResp)).1 = .raisedFailed okResp
    ∧ (send_dataModel
        (send_dataModel s0 [104] ("198.51.100.9", 4000) 11
          (.failure okResp)).2.1
        [106] ("198.51.100.9", 4000) 12 .cancelled).1 = .ok 0x4000 :=
  ⟨(c10_send_data_no_rollback s0 [104] [106] ("198.51.100.9", 4000) 11 12
      okResp .cancelled rfl rfl).1,
   (c10_send_data_no_rollback s0 [104] [106] ("198.51.100.9", 4000) 11 12
      okResp .cancelled rfl rfl).2.2.2.2.2.1⟩


/-! ### Channel number issuance (C4) -/

/-- Driver: `send_data` to each address in turn (empty payload, successful
binds), collecting the channel used per send in issuance order. -/
def sendMany : TurnState → List Addr → TurnState × List Nat
  | s, [] => (s, [])
  | s, a :: rest =>
    match send_dataModel s [] a 0 (.success okResp ("", 0)) with
    | (.ok ch, s', _) => ((sendMany s' rest).1, ch :: (sendMany s' rest).2)
    | (_, s', _) => sendMany s' rest

/-- Sending to pairwise-distinct, unbound addresses issues consecutive
channel numbers starting at the current counter. -/
theorem sendMany_range (addrs : List Addr) : ∀ s : TurnState,
    (∀ x ∈ addrs, s.peer_to_channel.lookup x = none) → addrs.Nodup →
    s.transactions.contains 0 = false →
    (sendMany s addrs).2 = List.range' s.channel_number addrs.length := by
  induction addrs with
  | nil =>
    intro s _ _ _
    rfl
  | cons a rest ih =>
    intro s hfresh hnodup hreg
    have hfr : s.peer_to_channel.lookup a = none :=
      hfresh a (List.mem_cons_self a rest)
    have h1 := send_data_first s [] a 0 okResp ("", 0) hfr hreg
    have hrest : (sendMany (boundState s a) rest).2 =
        List.range' (s.channel_number + 1) rest.length := by
      have hfresh2 : ∀ x ∈ rest,
          (boundState s a).peer_to_channel.lookup x = none := by
        intro x hx
        have hxa : ¬ x = a := by
          intro hc
          subst hc
          exact (List.nodup_cons.mp hnodup).1 hx
        show (peerSet s.peer_to_channel a s.channel_number).lookup x = none
        rw [lookup_peerSet]
        rw [if_neg hxa]
        exact hfresh x (List.mem_cons_of_mem a hx)
      exact ih (boundState s a) hfresh2 (List.nodup_cons.mp hnodup).2 hreg
    show (sendMany s (a :: rest)).2 = _
    rw [sendMany, h1]
    dsimp only
    rw [hrest]
    rfl

/-- **C4 (amended)**: from a fresh client, sending to `N` pairwise-distinct
peer addresses issues exactly the channel numbers
`0x4000, 0x4001, …, 0x4000+N-1`: `N` distinct values, strictly increasing
in issuance order, starting at 0x4000 and all `≥ 0x4000`.  They lie within
the protocol range `0x4000–0x7FFF` only while `N ≤ 0x4000`; the code never
checks the upper bound, so beyond 16384 distinct peers the issued numbers
leave the ChannelData range. -/
theorem c4_channel_number_issuance (server : Addr) (u p : String)
    (lt : Nat) (addrs : List Addr) (hnodup : addrs.Nodup) :
    (sendMany (initState server u p lt) addrs).2 =
      List.range' 0x4000 addrs.length
    ∧ (sendMany (initState server u p lt) addrs).2.Nodup
    ∧ (sendMany (initState server u p lt) addrs).2.Pairwise (· < ·)
    ∧ (∀ c ∈ (sendMany (initState server u p lt) addrs).2, 0x4000 ≤ c)
    ∧ (addrs.length ≤ 0x4000 →
        ∀ c ∈ (sendMany (initState server u p lt) addrs).2, c ≤ 0x7FFF) := by
  have hr : (sendMany (initState server u p lt) addrs).2 =
      List.range' 0x4000 addrs.length :=
    sendMany_range addrs (initState server u p lt) (fun x _ => rfl) hnodup
      rfl
  rw [hr]
  refine ⟨rfl, List.nodup_range' _ _, List.pairwise_lt_range' _ _, ?_, ?_⟩
  · intro c hc
    rw [List.mem_range'] at hc
    obtain ⟨i, _, rfl⟩ := hc
    omega
  · intro hlen c hc
    rw [List.mem_range'] at hc
    obtain ⟨i, hi, rfl⟩ := hc
    omega

theorem c4_channel_number_issuance_witness :
    (sendMany (initState ("turn.example.com", 3478) "user" "pass" 600)
        [("a", 1), ("b", 2)]).2 = List.range' 0x4000 2 :=
  (c4_channel_number_issuance ("turn.example.com", 3478) "user" "pass" 600
      [("a", 1), ("b", 2)] (by decide)).1

/-- 16385 pairwise-distinct peer addresses. -/
def c4addrs : List Addr := (List.range 16385).map (fun i => ("peer", i))

theorem c4addrs_nodup : c4addrs.Nodup := by
  unfold c4addrs
  refine (List.nodup_range 16385).map ?_
  intro x y hxy
  simpa using hxy

theorem c4addrs_length : c4addrs.length = 16385 := by
  simp [c4addrs]

/-- **C4 counterexample**: after 0x4001 (= 16385) distinct peers the
binding table has issued channel number 0x8000, which is outside the
0x4000–0x7FFF range the claim asserts for every issued channel. -/
theorem c4_counterexample :
    0x8000 ∈ (sendMany (initState ("turn.example.com", 3478) "user" "pass"
        600) c4addrs).2
    ∧ ¬ (0x8000 ≤ 0x7FFF) := by
  constructor
  · have hr : (sendMany (initState ("turn.example.com", 3478) "user" "pass"
        600) c4addrs).2 = List.range' 0x4000 c4addrs.length :=
      sendMany_range c4addrs
        (initState ("turn.example.com", 3478) "user" "pass" 600)
        (fun x _ => rfl) c4addrs_nodup rfl
    rw [hr, c4addrs_length, List.mem_range']
    refine ⟨0x4000, by norm_num, by norm_num⟩
  · decide


/-! ### Channel-map bijection invariant (C9) -/

/-- The two channel maps are mutual inverses. -/
def MutualInv (s : TurnState) : Prop :=
  ∀ c a, s.channel_to_peer.lookup c = some a ↔
    s.peer_to_channel.lookup a = some c

/-- Every bound channel number is below the counter. -/
def ChanBound (s : TurnState) : Prop :=
  ∀ c a, s.channel_to_peer.lookup c = some a → c < s.channel_number

/-- The invariant maintained by every operation. -/
def GoodState (s : TurnState) : Prop := MutualInv s ∧ ChanBound s

theorem requestM_maps (s : TurnState) (req : Message) (o : Outcome) :
    (requestM s req o).2.1.channel_to_peer = s.channel_to_peer
    ∧ (requestM s req o).2.1.peer_to_channel = s.peer_to_channel
    ∧ (requestM s req o).2.1.channel_number = s.channel_number := by
  unfold requestM
  split
  · exact ⟨rfl, rfl, rfl⟩
  · exact ⟨rfl, rfl, rfl⟩

theorem datagram_state (parse : List Nat → Option Message) (s : TurnState)
    (data : List Nat) : (datagram_receivedModel parse s data).1 = s := by
  unfold datagram_receivedModel
  split
  · split
    · split <;> rfl
    · rfl
  · split
    · rfl
    · split <;> rfl

theorem connectModel_maps (s : TurnState) (tid1 freshId : Nat)
    (o1 o2 : Outcome) :
    (connectModel s tid1 freshId o1 o2).2.1.channel_to_peer =
      s.channel_to_peer
    ∧ (connectModel s tid1 freshId o1 o2).2.1.peer_to_channel =
      s.peer_to_channel
    ∧ (connectModel s tid1 freshId o1 o2).2.1.channel_number =
      s.channel_number := by
  have hq := requestM_maps s (mkAllocateRequest s.lifetime tid1) o1
  unfold connectModel
  rcases heq : requestM s (mkAllocateRequest s.lifetime tid1) o1 with
    ⟨res1, s1, tr1⟩
  rw [heq] at hq
  dsimp only at hq
  cases res1 <;> dsimp only
  case cancelled => exact hq
  case assertError => exact hq
  case ok resp addr =>
    have hf := allocateFinish_fields s1 resp tr1
    exact ⟨hf.2.2.2.2.1.trans hq.1, hf.2.2.2.2.2.1.trans hq.2.1,
      hf.2.2.2.2.2.2.1.trans hq.2.2⟩
  case failed resp =>
    rcases hec : getAttr resp "ERROR-CODE" with _ | v
    · exact hq
    · cases v
      · exact hq
      · exact hq
      · exact hq
      · exact hq
      · rename_i code phrase
        dsimp only
        by_cases hc : code = 401
        · rw [if_pos hc]
          rcases hnn : getAttr resp "NONCE" with _ | w
          · exact hq
          · cases w
            · exact hq
            · exact hq
            · rename_i nb
              dsimp only
              rcases hrr : getAttr resp "REALM" with _ | u
              · exact hq
              · cases u
                · exact hq
                · rename_i rs
                  dsimp only
                  have hq2 := requestM_maps (challengedState s1 nb rs)
                    (allocRetryReq s tid1 freshId) o2
                  rcases heq2 : requestM (challengedState s1 nb rs)
                      (allocRetryReq s tid1 freshId) o2 with ⟨res2, s3, tr2⟩
                  rw [heq2] at hq2
                  dsimp only at hq2
                  cases res2
                  · rename_i resp2 addr2
                    dsimp only
                    have hf2 := allocateFinish_fields s3 resp2 (tr1 ++ tr2)
                    exact ⟨(hf2.2.2.2.2.1.trans hq2.1).trans hq.1,
                      (hf2.2.2.2.2.2.1.trans hq2.2.1).trans hq.2.1,
                      (hf2.2.2.2.2.2.2.1.trans hq2.2.2).trans hq.2.2⟩
                  · exact ⟨hq2.1.trans hq.1, hq2.2.1.trans hq.2.1,
                      hq2.2.2.trans hq.2.2⟩
                  · exact ⟨hq2.1.trans hq.1, hq2.2.1.trans hq.2.1,
                      hq2.2.2.trans hq.2.2⟩
                  · exact ⟨hq2.1.trans hq.1, hq2.2.1.trans hq.2.1,
                      hq2.2.2.trans hq.2.2⟩
                · exact hq
                · exact hq
                · exact hq
                · exact hq
            · exact hq
            · exact hq
            · exact hq
        · rw [if_neg hc]
          have hf := allocateFinish_fields s1 resp tr1
          exact ⟨hf.2.2.2.2.1.trans hq.1, hf.2.2.2.2.2.1.trans hq.2.1,
            hf.2.2.2.2.2.2.1.trans hq.2.2⟩
      · exact hq

theorem deleteModel_maps (s : TurnState) (tid : Nat) (o : Outcome) :
    (deleteModel s tid o).2.1.channel_to_peer = s.channel_to_peer
    ∧ (deleteModel s tid o).2.1.peer_to_channel = s.peer_to_channel
    ∧ (deleteModel s tid o).2.1.channel_number = s.channel_number := by
  unfold deleteModel
  by_cases hrh : s.refresh_handle = true
  · simp only [if_pos hrh]
    have hq := requestM_maps ({ s with refresh_handle := false } : TurnState)
      (mkTeardownRequest tid) o
    rcases heq : requestM ({ s with refresh_handle := false } : TurnState)
        (mkTeardownRequest tid) o with ⟨res, s2, tr⟩
    rw [heq] at hq
    dsimp only at hq
    cases res <;> exact ⟨hq.1, hq.2.1, hq.2.2⟩
  · simp only [if_neg hrh]
    have hq := requestM_maps s (mkTeardownRequest tid) o
    rcases heq : requestM s (mkTeardownRequest tid) o with ⟨res, s2, tr⟩
    rw [heq] at hq
    dsimp only at hq
    cases res <;> exact ⟨hq.1, hq.2.1, hq.2.2⟩

theorem boundState_good (s : TurnState) (addr : Addr) (hg : GoodState s)
    (hnone : s.peer_to_channel.lookup addr = none) :
    GoodState (boundState s addr) := by
  obtain ⟨hinv, hbd⟩ := hg
  constructor
  · intro c a
    show (chanSet s.channel_to_peer s.channel_number addr).lookup c =
        some a ↔
      (peerSet s.peer_to_channel addr s.channel_number).lookup a = some c
    rw [lookup_chanSet, lookup_peerSet]
    by_cases hc : c = s.channel_number
    · subst hc
      rw [if_pos rfl]
      by_cases ha : a = addr
      · subst ha
        rw [if_pos rfl]
        simp
      · rw [if_neg ha]
        constructor
        · intro hx
          exact absurd (Option.some.inj hx).symm ha
        · intro hx
          have h1 := (hinv s.channel_number a).mpr hx
          have h2 := hbd s.channel_number a h1
          omega
    · rw [if_neg hc]
      by_cases ha : a = addr
      · subst ha
        rw [if_pos rfl]
        constructor
        · intro hx
          have h1 := (hinv c a).mp hx
          rw [hnone] at h1
          exact Option.noConfusion h1
        · intro hx
          exact absurd (Option.some.inj hx).symm hc
      · rw [if_neg ha]
        exact hinv c a
  · intro c a
    show (chanSet s.channel_to_peer s.channel_number addr).lookup c =
        some a → c < s.channel_number + 1
    rw [lookup_chanSet]
    by_cases hc : c = s.channel_number
    · intro _
      omega
    · rw [if_neg hc]
      intro hx
      have := hbd c a hx
      omega

theorem boundState_mono (s : TurnState) (addr : Addr) (hg : GoodState s)
    (hnone : s.peer_to_channel.lookup addr = none) :
    (∀ c a, s.channel_to_peer.lookup c = some a →
      (boundState s addr).channel_to_peer.lookup c = some a)
    ∧ (∀ a c, s.peer_to_channel.lookup a = some c →
      (boundState s addr).peer_to_channel.lookup a = some c) := by
  obtain ⟨hinv, hbd⟩ := hg
  constructor
  · intro c a hy
    show (chanSet s.channel_to_peer s.channel_number addr).lookup c = some a
    rw [lookup_chanSet]
    have hc : ¬ c = s.channel_number := by
      intro hcc
      subst hcc
      have := hbd s.channel_number a hy
      omega
    rw [if_neg hc]
    exact hy
  · intro a c hy
    show (peerSet s.peer_to_channel addr s.channel_number).lookup a = some c
    rw [lookup_peerSet]
    have ha : ¬ a = addr := by
      intro haa
      subst haa
      rw [hnone] at hy
      exact Option.noConfusion hy
    rw [if_neg ha]
    exact hy

theorem send_dataModel_good (s : TurnState) (data : List Nat) (addr : Addr)
    (tid : Nat) (o : Outcome) (hg : GoodState s) :
    GoodState (send_dataModel s data addr tid o).2.1
    ∧ (∀ c a, s.channel_to_peer.lookup c = some a →
        (send_dataModel s data addr tid o).2.1.channel_to_peer.lookup c =
          some a)
    ∧ (∀ a c, s.peer_to_channel.lookup a = some c →
        (send_dataModel s data addr tid o).2.1.peer_to_channel.lookup a =
          some c) := by
  unfold send_dataModel
  rcases hlook : s.peer_to_channel.lookup addr with _ | ch <;> dsimp only
  case some => exact ⟨hg, fun c a hy => hy, fun a c hy => hy⟩
  case none =>
    unfold channel_bindModel
    have hq := requestM_maps (boundState s addr)
      (mkChannelBindRequest s.channel_number addr tid) o
    have hbs := boundState_good s addr hg hlook
    have hms := boundState_mono s addr hg hlook
    rcases heq : requestM (boundState s addr)
        (mkChannelBindRequest s.channel_number addr tid) o with
      ⟨res, s2, tr⟩
    rw [heq] at hq
    dsimp only at hq
    cases res <;> dsimp only <;>
      exact ⟨⟨fun c a => by rw [hq.1, hq.2.1]; exact hbs.1 c a,
        fun c a hy => by
          rw [hq.2.2]
          rw [hq.1] at hy
          exact hbs.2 c a hy⟩,
        fun c a hy => by rw [hq.1]; exact hms.1 c a hy,
        fun a c hy => by rw [hq.2.1]; exact hms.2 a c hy⟩

/-- One client operation, as a relation between the state before and the
state after. -/
inductive StepR : TurnState → TurnState → Prop where
  | connect (s : TurnState) (tid1 freshId : Nat) (o1 o2 : Outcome) :
      StepR s (connectModel s tid1 freshId o1 o2).2.1
  | delete (s : TurnState) (tid : Nat) (o : Outcome) :
      StepR s (deleteModel s tid o).2.1
  | send (s : TurnState) (data : List Nat) (addr : Addr) (tid : Nat)
      (o : Outcome) : StepR s (send_dataModel s data addr tid o).2.1
  | request (s : TurnState) (req : Message) (o : Outcome) :
      StepR s (requestM s req o).2.1
  | datagram (s : TurnState) (parse : List Nat → Option Message)
      (data : List Nat) : StepR s (datagram_receivedModel parse s data).1

/-- States reachable from construction by any sequence of operations. -/
inductive Reachable : TurnState → Prop where
  | init (server : Addr) (username password : String) (lifetime : Nat) :
      Reachable (initState server username password lifetime)
  | step {s s' : TurnState} : Reachable s → StepR s s' → Reachable s'

theorem initState_good (server : Addr) (u p : String) (lt : Nat) :
    GoodState (initState server u p lt) := by
  refine ⟨fun c a => ⟨fun hx => Option.noConfusion hx,
    fun hx => Option.noConfusion hx⟩,
    fun c a hx => Option.noConfusion hx⟩

theorem step_good {s s' : TurnState} (hg : GoodState s) (hs : StepR s s') :
    GoodState s'
    ∧ (∀ c a, s.channel_to_peer.lookup c = some a →
        s'.channel_to_peer.lookup c = some a)
    ∧ (∀ a c, s.peer_to_channel.lookup a = some c →
        s'.peer_to_channel.lookup a = some c) := by
  cases hs with
  | connect tid1 freshId o1 o2 =>
    have h := connectModel_maps s tid1 freshId o1 o2
    refine ⟨⟨fun c a => by rw [h.1, h.2.1]; exact hg.1 c a,
      fun c a hx => by
        rw [h.2.2]
        rw [h.1] at hx
        exact hg.2 c a hx⟩,
      fun c a hx => by rw [h.1]; exact hx,
      fun a c hx => by rw [h.2.1]; exact hx⟩
  | delete tid o =>
    have h := deleteModel_maps s tid o
    refine ⟨⟨fun c a => by rw [h.1, h.2.1]; exact hg.1 c a,
      fun c a hx => by
        rw [h.2.2]
        rw [h.1] at hx
        exact hg.2 c a hx⟩,
      fun c a hx => by rw [h.1]; exact hx,
      fun a c hx => by rw [h.2.1]; exact hx⟩
  | send data addr tid o =>
    exact send_dataModel_good s data addr tid o hg
  | request req o =>
    have h := requestM_maps s req o
    refine ⟨⟨fun c a => by rw [h.1, h.2.1]; exact hg.1 c a,
      fun c a hx => by
        rw [h.2.2]
        rw [h.1] at hx
        exact hg.2 c a hx⟩,
      fun c a hx => by rw [h.1]; exact hx,
      fun a c hx => by rw [h.2.1]; exact hx⟩
  | datagram parse data =>
    have h := datagram_state parse s data
    rw [h]
    exact ⟨hg, fun c a hx => hx, fun a c hx => hx⟩

theorem reachable_good (s : TurnState) (h : Reachable s) : GoodState s := by
  induction h with
  | init server u p lt => exact initState_good server u p lt
  | step hr hs ih => exact (step_good ih hs).1

/-- **C9**: in every client state reachable by any sequence of operations
from construction, the channel maps are mutual inverses —
`channel_to_peer` maps `c` to `a` iff `peer_to_channel` maps `a` to `c` —
and no operation ever removes an entry from either map. -/
theorem c9_channel_maps_bijection (s : TurnState) (h : Reachable s) :
    (∀ c a, s.channel_to_peer.lookup c = some a ↔
      s.peer_to_channel.lookup a = some c)
    ∧ ∀ s', StepR s s' →
        (∀ c a, s.channel_to_peer.lookup c = some a →
          s'.channel_to_peer.lookup c = some a)
        ∧ (∀ a c, s.peer_to_channel.lookup a = some c →
          s'.peer_to_channel.lookup a = some c) := by
  have hg := reachable_good s h
  exact ⟨hg.1, fun s' hs =>
    ⟨(step_good hg hs).2.1, (step_good hg hs).2.2⟩⟩

theorem c9_channel_maps_bijection_witness :
    (∀ c a, (initState ("turn.example.com", 3478) "user" "pass"
        600).channel_to_peer.lookup c = some a ↔
      (initState ("turn.example.com", 3478) "user" "pass"
        600).peer_to_channel.lookup a = some c)
    ∧ ∀ s', StepR (initState ("turn.example.com", 3478) "user" "pass"
        600) s' →
        (∀ c a, (initState ("turn.example.com", 3478) "user" "pass"
            600).channel_to_peer.lookup c = some a →
          s'.channel_to_peer.lookup c = some a)
        ∧ (∀ a c, (initState ("turn.example.com", 3478) "user" "pass"
            600).peer_to_channel.lookup a = some c →
          s'.peer_to_channel.lookup a = some c) :=
  c9_channel_maps_bijection
    (initState ("turn.example.com", 3478) "user" "pass" 600)
    (Reachable.init ("turn.example.com", 3478) "user" "pass" 600)

end Turn
